import Mathlib

/-!
Verification of the ReelScript media-serving reverse-proxy gateway
(`server.js`): a shallow embedding of the request handlers, the byte-range
video file server, the process supervisor hooks and the startup orchestrator,
together with theorems settling the specification's claims about them.

Strings are embedded as `List Char`; JavaScript numbers that may be `NaN`
are embedded as `Option Int` (`none` = `NaN`); handlers that may throw an
uncaught exception return `Except Str _` (`.error` = the exception escaped).
-/

set_option maxHeartbeats 1000000

namespace ReelScript

/-- JavaScript strings, embedded as lists of characters. -/
abbrev Str := List Char

/-- A JavaScript number in the places where the server code can produce
`NaN`: `none` is `NaN`, `some i` an integer value. -/
abbrev JSNum := Option Int

/-- Whether `pat` is a prefix of the second list (JS `String.startsWith`). -/
def listStartsWith : Str → Str → Bool
  | [], _ => true
  | _ :: _, [] => false
  | p :: ps, x :: xs => if p = x then listStartsWith ps xs else false

/-- Whether `pat` occurs as a contiguous subsequence (JS `String.includes`). -/
def containsSeq (pat : Str) : Str → Bool
  | [] => pat.isEmpty
  | x :: xs => listStartsWith pat (x :: xs) || containsSeq pat xs

/-- JS `String.replace(pat, '')` for a plain-string pattern: remove the
first occurrence of `pat`, leave the string unchanged if `pat` is absent. -/
def replaceFirst (pat : Str) : Str → Str
  | [] => []
  | x :: xs =>
    if listStartsWith pat (x :: xs) then (x :: xs).drop pat.length
    else x :: replaceFirst pat xs

/-- JS `String.split(sep)` for a one-character separator. -/
def splitOnChar (c : Char) : Str → List Str
  | [] => [[]]
  | x :: xs =>
    if x = c then [] :: splitOnChar c xs
    else
      match splitOnChar c xs with
      | [] => [[x]]
      | h :: t => (x :: h) :: t

/-- Value of a hexadecimal digit character, if it is one. -/
def hexVal? (c : Char) : Option Nat :=
  if '0' ≤ c ∧ c ≤ '9' then some (c.toNat - 48)
  else if 'a' ≤ c ∧ c ≤ 'f' then some (c.toNat - 87)
  else if 'A' ≤ c ∧ c ≤ 'F' then some (c.toNat - 55)
  else none

/-- JS `decodeURIComponent` (ASCII fragment): a `%` followed by two hex
digits decodes to the character with that code, a `%` not followed by two
hex digits throws `URIError: URI malformed` (modelled as `.error`). -/
def decodeURIComponent : Str → Except Str Str
  | [] => .ok []
  | c :: cs =>
    if c = '%' then
      match cs with
      | c1 :: c2 :: rest =>
        match hexVal? c1, hexVal? c2 with
        | some h1, some h2 => (decodeURIComponent rest).map (fun t => Char.ofNat (h1 * 16 + h2) :: t)
        | _, _ => .error "URI malformed".data
      | _ => .error "URI malformed".data
    else (decodeURIComponent cs).map (fun t => c :: t)

/-- Digit character for a value below 36, as produced by JS
`Number.prototype.toString(base)`: `0`-`9` then `a`-`z`. -/
def digitChar36 (d : Nat) : Char :=
  if d < 10 then Char.ofNat (48 + d) else Char.ofNat (87 + d)

/-- Base-`b` digit string of `n`, most significant digit first; `fuel`
bounds the recursion depth (any `fuel > n` is enough). -/
def toBaseAux (b : Nat) : Nat → Nat → Str
  | 0, _ => []
  | fuel + 1, n =>
    if n < b then [digitChar36 n]
    else toBaseAux b fuel (n / b) ++ [digitChar36 (n % b)]

/-- JS `n.toString(b)` for a natural number `n`. -/
def natToBase (b n : Nat) : Str := toBaseAux b (n + 1) n

/-- JS `String(n)` / `n.toString(10)` for a natural number. -/
def decStr (n : Nat) : Str := natToBase 10 n

/-- JS `n.toString(36)`, as used for the ETag fields. -/
def toString36 (n : Nat) : Str := natToBase 36 n

/-- JS `String(i)` for an integer. -/
def intStr (i : Int) : Str :=
  if i < 0 then '-' :: decStr i.natAbs else decStr i.toNat

/-- JS string conversion of a possibly-`NaN` number. -/
def jsNumToStr : JSNum → Str
  | none => "NaN".data
  | some i => intStr i

/-- JS `+` on possibly-`NaN` numbers. -/
def jsAdd : JSNum → JSNum → JSNum
  | some a, some b => some (a + b)
  | _, _ => none

/-- JS `-` on possibly-`NaN` numbers. -/
def jsSub : JSNum → JSNum → JSNum
  | some a, some b => some (a - b)
  | _, _ => none

/-- Whitespace characters skipped by JS `parseInt`. -/
def isWs (c : Char) : Bool := c = ' ' || c = '\t' || c = '\n' || c = '\r'

/-- Decimal digit test. -/
def isDigitCh (c : Char) : Bool := '0' ≤ c && c ≤ '9'

/-- Value of the maximal decimal-digit prefix, `none` when there is none
(the `NaN` case of `parseInt`). -/
def digitsVal (l : Str) : Option Nat :=
  let ds := l.takeWhile isDigitCh
  if ds.isEmpty then none
  else some (ds.foldl (fun a c => a * 10 + (c.toNat - 48)) 0)

/-- JS `parseInt(s, 10)`: skip whitespace, optional sign, then the maximal
digit prefix; `NaN` (= `none`) when no digit follows. -/
def jsParseInt (l : Str) : JSNum :=
  match l.dropWhile isWs with
  | [] => none
  | c :: rest =>
    if c = '-' then (digitsVal rest).map (fun n => -(n : Int))
    else if c = '+' then (digitsVal rest).map (fun n => (n : Int))
    else (digitsVal (c :: rest)).map (fun n => (n : Int))

/-- Value of a base-36 digit character (inverse of `digitChar36`). -/
def charVal (c : Char) : Nat :=
  if c ≤ '9' then c.toNat - 48 else c.toNat - 87

/-- Decode a most-significant-first digit string back to a number. -/
def decodeBase (b : Nat) (l : Str) : Nat :=
  l.foldl (fun a c => a * b + charVal c) 0

/-- Result of `fs.statSync` on a video file: size in bytes and modification
time in milliseconds (`stat.size`, `stat.mtimeMs`). -/
structure FileStat where
  size : Nat
  mtimeMs : Nat
deriving DecidableEq

/-- What the handler sends as a response body: a literal text, a partial
read stream `createReadStream(path, lo, hi)`, or a full-file stream. -/
inductive Body where
  | text (s : Str)
  | fileStream (lo hi : JSNum)
  | fileAll
deriving DecidableEq

/-- An HTTP response as produced by `res.writeHead` / `res.end` / piping. -/
structure VideoResponse where
  status : Nat
  headers : List (Str × Str)
  body : Body
deriving DecidableEq

/-- The extension-to-MIME table from `serveVideo`. -/
def mimeTypes : List (Str × Str) :=
  [(".mp4".data, "video/mp4".data),
   (".webm".data, "video/webm".data),
   (".mp3".data, "audio/mpeg".data)]

/-- First-match association lookup (JS object key access / header lookup). -/
def lookupHdr (k : Str) : List (Str × Str) → Option Str
  | [] => none
  | p :: rest => if p.1 = k then some p.2 else lookupHdr k rest

/-- Suffix of the list starting at its last `.`, if any. -/
def lastDotSuffix : Str → Option Str
  | [] => none
  | '.' :: xs =>
    match lastDotSuffix xs with
    | some e => some e
    | none => some ('.' :: xs)
  | _ :: xs => lastDotSuffix xs

/-- Node `path.extname` on a flat filename: the part from the last dot,
a dot in first position alone not counting (hidden files). -/
def extname (s : Str) : Str :=
  match s with
  | [] => []
  | _ :: rest =>
    match lastDotSuffix rest with
    | some e => e
    | none => []

/-- The entity tag computed by `serveVideo`:
base-36 mtime and size joined by a dash, wrapped in double quotes. -/
def etagOf (stat : FileStat) : Str :=
  "\"".data ++ toString36 stat.mtimeMs ++ "-".data ++ toString36 stat.size ++ "\"".data

/-- The header object `cacheHeaders` built by `serveVideo`. -/
def cacheHeadersOf (contentType etag : Str) : List (Str × Str) :=
  [("Content-Type".data, contentType),
   ("Accept-Ranges".data, "bytes".data),
   ("ETag".data, etag),
   ("Cache-Control".data, "public, max-age=3600".data)]

/-- The filename validation from `serveVideo`:
`filename.includes('..') || filename.includes('/')`. -/
def badName (filename : Str) : Bool :=
  containsSeq "..".data filename || containsSeq "/".data filename

/-- Node `fs.ReadStream`'s synchronous validation of the `start`/`end`
options passed to `createReadStream`: each must be a non-negative integer
(`NaN` fails) and `start ≤ end`, otherwise the constructor throws
`ERR_OUT_OF_RANGE`. -/
def validStreamBounds : JSNum → JSNum → Bool
  | some a, some b => if 0 ≤ a ∧ 0 ≤ b ∧ a ≤ b then true else false
  | _, _ => false

/-- The 206 branch of `serveVideo`: parse the Range header value, call
`writeHead(206, ...)` with `Content-Range` and `Content-Length` built from
the parsed values, and pipe `createReadStream(filePath, (start, end))`.
The stream constructor validates the bounds synchronously and throws
`ERR_OUT_OF_RANGE` on a `NaN`, negative or inverted bound; nothing in the
handler catches it, so the buffered 206 head is never delivered and the
exception escapes (the `.error` case). -/
def serveVideoRange206 (stat : FileStat) (cacheHeaders : List (Str × Str)) (r : Str) :
    Except Str VideoResponse :=
  let parts := splitOnChar '-' (replaceFirst "bytes=".data r)
  let lo := jsParseInt (parts.headD [])
  let hi : JSNum :=
    match parts[1]? with
    | some p => if p.isEmpty then some ((stat.size : Int) - 1) else jsParseInt p
    | none => some ((stat.size : Int) - 1)
  if validStreamBounds lo hi then
    .ok ⟨206,
     cacheHeaders ++
       [("Content-Range".data,
         "bytes ".data ++ jsNumToStr lo ++ "-".data ++ jsNumToStr hi ++ "/".data ++ decStr stat.size),
        ("Content-Length".data, jsNumToStr (jsAdd (jsSub hi lo) (some 1)))],
     .fileStream lo hi⟩
  else .error "ERR_OUT_OF_RANGE".data

/-- The 200 branch of `serveVideo`: full file with explicit length. -/
def serveVideoFull200 (stat : FileStat) (cacheHeaders : List (Str × Str)) : VideoResponse :=
  ⟨200, cacheHeaders ++ [("Content-Length".data, decStr stat.size)], .fileAll⟩

/-- Content type chosen by `serveVideo`: the MIME table entry for the
extension, defaulting to a generic octet stream. -/
def mimeFor (filename : Str) : Str :=
  (lookupHdr (extname filename) mimeTypes).getD "application/octet-stream".data

/-- The part of `serveVideo` after a successful stat: content type, cache
headers, then the `if (range)` split (a JS truthiness test: an absent or
empty header value takes the 200 branch); the 206 branch can let the
stream constructor's `ERR_OUT_OF_RANGE` escape. -/
def serveVideoFound (stat : FileStat) (filename : Str) (range : Option Str) :
    Except Str VideoResponse :=
  let contentType := mimeFor filename
  let cacheHeaders := cacheHeadersOf contentType (etagOf stat)
  match range with
  | some r =>
    if r.isEmpty then .ok (serveVideoFull200 stat cacheHeaders)
    else serveVideoRange206 stat cacheHeaders r
  | none => .ok (serveVideoFull200 stat cacheHeaders)

/-- The `serveVideo` request handler. `fs` models the contents of the
videos directory (`statSync` keyed by filename, `none` = stat throws);
`url` is the raw request URL, `range` the raw `Range` header value.
An `.error` result is an exception escaping the handler uncaught: the
URIError of `decodeURIComponent` on a malformed percent encoding, or the
ERR_OUT_OF_RANGE of `createReadStream` on invalid parsed Range bounds. -/
def serveVideo (fs : Str → Option FileStat) (url : Str) (range : Option Str) :
    Except Str VideoResponse :=
  match decodeURIComponent (replaceFirst "/videos/".data url) with
  | .error e => .error e
  | .ok filename =>
    if badName filename then .ok ⟨400, [], .text "Bad request".data⟩
    else
      match fs filename with
      | none => .ok ⟨404, [], .text "Not found".data⟩
      | some stat => serveVideoFound stat filename range

/-- Status of a handler result, `none` if an exception escaped. -/
def respStatus? : Except Str VideoResponse → Option Nat
  | .ok r => some r.status
  | .error _ => none

/-- A header of a handler result, `none` if absent or an exception escaped. -/
def respHeader? (k : Str) : Except Str VideoResponse → Option Str
  | .ok r => lookupHdr k r.headers
  | .error _ => none

/-- Body of a handler result. -/
def respBody? : Except Str VideoResponse → Option Body
  | .ok r => some r.body
  | .error _ => none

/-- Whether the handler produced one of the statuses the spec's propagation
policy allows (200, 206, 400, 404) rather than letting an exception escape. -/
def handledOk : Except Str VideoResponse → Bool
  | .ok r => r.status == 200 || r.status == 206 || r.status == 400 || r.status == 404
  | .error _ => false

/-- Number of bytes `createReadStream` pipes for a body, given the file
size: the whole file, the text, or `hi - lo + 1` for an in-bounds range. -/
def streamedBytes (size : Nat) : Body → Option Nat
  | .fileAll => some size
  | .text s => some s.length
  | .fileStream (some a) (some b) =>
    if 0 ≤ a ∧ a ≤ b ∧ b < (size : Int) then some ((b - a + 1).toNat) else none
  | .fileStream _ _ => none

/-- Side effects of the event handlers registered by the gateway. -/
inductive Effect where
  | log (msg : Str)
  | writeHead (status : Nat) (headers : List (Str × Str))
  | endBody (body : Str)
  | exitProcess (code : Nat)
  | spawnBackend
  | proxyWs
  | destroySocket
deriving DecidableEq

/-- Exit codes requested by a list of effects. -/
def exitCodes (l : List Effect) : List Nat :=
  l.filterMap fun e =>
    match e with
    | Effect.exitProcess c => some c
    | _ => none

/-- Number of backend (re)spawns in a list of effects. -/
def spawnCount (l : List Effect) : Nat :=
  (l.filter fun e =>
    match e with
    | Effect.spawnBackend => true
    | _ => false).length

/-- Whether any HTTP response head is written by a list of effects. -/
def writesResponse (l : List Effect) : Bool :=
  l.any fun e =>
    match e with
    | Effect.writeHead _ _ => true
    | _ => false

/-- JS template interpolation of a child exit code (a number, or `null`
when the child was killed by a signal). -/
def jsExitCodeStr : Option Int → Str
  | none => "null".data
  | some i => intStr i

/-- The `backend.on('exit')` handler: log the exit code, terminate the
gateway with exit code 1; nothing is respawned. -/
def backendOnExit (code : Option Int) : List Effect :=
  [Effect.log ("[backend] exited with code ".data ++ jsExitCodeStr code),
   Effect.exitProcess 1]

/-- Comma-join of string pieces (JSON member list). -/
def joinComma : List Str → Str
  | [] => []
  | [s] => s
  | s :: rest => s ++ ",".data ++ joinComma rest

/-- JSON.stringify of a flat object of string fields. -/
def jsonStringify (kvs : List (Str × Str)) : Str :=
  "\x7b".data ++
    joinComma (kvs.map fun kv => "\"".data ++ kv.1 ++ "\":\"".data ++ kv.2 ++ "\"".data) ++
    "\x7d".data

/-- The object the proxy error handler serialises: `(error: 'Backend unavailable')`. -/
def proxyErrorBody : List (Str × Str) := [("error".data, "Backend unavailable".data)]

/-- The `proxy.on('error')` handler: log, and when the target is an HTTP
response (`res.writeHead` exists), answer 502 with a JSON error body; the
process is never exited here. -/
def proxyOnError (errMsg : Str) (hasWriteHead : Bool) : List Effect :=
  Effect.log ("[proxy] error: ".data ++ errMsg) ::
    (if hasWriteHead then
      [Effect.writeHead 502 [("Content-Type".data, "application/json".data)],
       Effect.endBody (jsonStringify proxyErrorBody)]
    else [])

/-- The three dispatch targets of the request listener. -/
inductive Route where
  | video
  | api
  | shell
deriving DecidableEq

/-- JS `req.url?.startsWith(p)` (an undefined URL is falsy). -/
def urlStartsWith (url : Option Str) (p : Str) : Bool :=
  match url with
  | some u => listStartsWith p u
  | none => false

/-- The request listener's routing: `/videos/` prefix to the video server,
else `/api/` prefix to the proxy, else the SvelteKit handler. -/
def routeOf (url : Option Str) : Route :=
  if urlStartsWith url "/videos/".data then Route.video
  else if urlStartsWith url "/api/".data then Route.api
  else Route.shell

/-- The `server.on('upgrade')` handler: proxy the upgrade when the URL is
exactly `/ws`, otherwise destroy the socket (no response written). -/
def upgradeHandler (url : Option Str) : List Effect :=
  if url = some "/ws".data then [Effect.proxyWs] else [Effect.destroySocket]

/-- The retry budget of `waitForBackend` (its `maxRetries` default). -/
def MAX_RETRIES : Nat := 30

/-- The delay between health probes, in milliseconds (`setTimeout(r, 1000)`). -/
def RETRY_DELAY_MS : Nat := 1000

/-- The gateway's public port (default of `process.env.PORT`). -/
def PORT : Nat := 4005

/-- The polling loop of `waitForBackend`: `health i` is whether the `i`-th
probe of `/api/health` came back HTTP-OK. -/
def waitForBackendLoop (health : Nat → Bool) (i : Nat) : Nat → Bool
  | 0 => false
  | fuel + 1 => if health i then true else waitForBackendLoop health (i + 1) fuel

/-- `waitForBackend()`: up to `MAX_RETRIES` probes, true as soon as one is OK. -/
def waitForBackend (health : Nat → Bool) : Bool :=
  waitForBackendLoop health 0 MAX_RETRIES

/-- What the startup continuation does: open the public listener, or exit. -/
inductive StartupOutcome where
  | listen (port : Nat)
  | exitFail (code : Nat)
deriving DecidableEq

/-- The `waitForBackend().then(...)` continuation: `server.listen(PORT)`
only when a probe succeeded, otherwise `process.exit(1)` and no listener. -/
def startupOutcome (health : Nat → Bool) : StartupOutcome :=
  if waitForBackend health then StartupOutcome.listen PORT else StartupOutcome.exitFail 1

/-- A one-file videos directory used by the concrete witnesses. -/
def demoFs : Str → Option FileStat :=
  fun n => if n = "movie.mp4".data then some ⟨1000, 12345⟩ else none

end ReelScript

deriving instance DecidableEq for Except

namespace ReelScript

lemma listStartsWith_pre (p rest : Str) : listStartsWith p (p ++ rest) = true := by
  induction p with
  | nil => rfl
  | cons c cs ih => simp [listStartsWith, ih]

lemma replaceFirst_pre (p rest : Str) : replaceFirst p (p ++ rest) = rest := by
  cases p with
  | nil =>
    cases rest with
    | nil => rfl
    | cons x xs => simp [replaceFirst, listStartsWith]
  | cons c cs =>
    have h : listStartsWith (c :: cs) (c :: (cs ++ rest)) = true := listStartsWith_pre (c :: cs) rest
    show replaceFirst (c :: cs) (c :: (cs ++ rest)) = rest
    rw [replaceFirst, if_pos h]
    have : (c :: (cs ++ rest)) = (c :: cs) ++ rest := rfl
    rw [this, List.drop_left]

lemma splitOnChar_not_mem (c : Char) (l : Str) (h : c ∉ l) : splitOnChar c l = [l] := by
  induction l with
  | nil => rfl
  | cons x xs ih =>
    have hx : ¬(x = c) := fun e => h (e ▸ List.mem_cons_self x xs)
    have hxs : c ∉ xs := fun m => h (List.mem_cons_of_mem _ m)
    simp [splitOnChar, hx, ih hxs]

lemma splitOnChar_sep (c : Char) (l1 l2 : Str) (h : c ∉ l1) :
    splitOnChar c (l1 ++ c :: l2) = l1 :: splitOnChar c l2 := by
  induction l1 with
  | nil => simp [splitOnChar]
  | cons x xs ih =>
    have hx : ¬(x = c) := fun e => h (e ▸ List.mem_cons_self x xs)
    have hxs : c ∉ xs := fun m => h (List.mem_cons_of_mem _ m)
    have hrec := ih hxs
    simp only [List.cons_append, splitOnChar, hx, if_false, List.append_eq]
    rw [hrec]

lemma charVal_digitChar36 : ∀ d, d < 36 → charVal (digitChar36 d) = d := by decide

lemma digitChar36_digit : ∀ d, d < 10 → isDigitCh (digitChar36 d) = true := by decide

lemma digitChar36_not_dash : ∀ d, d < 36 → digitChar36 d ≠ '-' := by decide

lemma digitChar36_not_quote : ∀ d, d < 36 → digitChar36 d ≠ '"' := by decide

lemma digitChar36_props10 :
    ∀ d, d < 10 → isWs (digitChar36 d) = false ∧ digitChar36 d ≠ '-' ∧ digitChar36 d ≠ '+' := by
  decide

lemma toBaseAux_chars (b : Nat) (hb : 2 ≤ b) :
    ∀ fuel n, n < fuel → ∀ c ∈ toBaseAux b fuel n, ∃ d, d < b ∧ c = digitChar36 d := by
  intro fuel
  induction fuel with
  | zero => intro n hn; omega
  | succ m ih =>
    intro n hn c hc
    by_cases h : n < b
    · simp only [toBaseAux, if_pos h, List.mem_singleton] at hc
      exact ⟨n, h, hc⟩
    · simp only [toBaseAux, if_neg h] at hc
      rcases List.mem_append.mp hc with h1 | h2
      · have hdiv : n / b < m := by
          have h1 : n / b < n := Nat.div_lt_self (by omega) (by omega)
          omega
        exact ih (n / b) hdiv c h1
      · simp only [List.mem_singleton] at h2
        exact ⟨n % b, Nat.mod_lt _ (by omega), h2⟩

lemma decodeBase_append_digit (b : Nat) (X : Str) (y : Char) :
    decodeBase b (X ++ [y]) = decodeBase b X * b + charVal y := by
  simp [decodeBase, List.foldl_append]

lemma toBaseAux_decode (b : Nat) (hb : 2 ≤ b) (hb36 : b ≤ 36) :
    ∀ fuel n, n < fuel → decodeBase b (toBaseAux b fuel n) = n := by
  intro fuel
  induction fuel with
  | zero => intro n hn; omega
  | succ m ih =>
    intro n hn
    by_cases h : n < b
    · simp [toBaseAux, if_pos h, decodeBase, charVal_digitChar36 n (by omega)]
    · have hdiv : n / b < m := by
        have h1 : n / b < n := Nat.div_lt_self (by omega) (by omega)
        omega
      have hmod : n % b < b := Nat.mod_lt _ (by omega)
      rw [toBaseAux, if_neg h, decodeBase_append_digit, ih (n / b) hdiv,
        charVal_digitChar36 (n % b) (by omega)]
      rw [Nat.mul_comm]
      exact Nat.div_add_mod n b

lemma decodeBase_natToBase (b : Nat) (hb : 2 ≤ b) (hb36 : b ≤ 36) (n : Nat) :
    decodeBase b (natToBase b n) = n :=
  toBaseAux_decode b hb hb36 (n + 1) n (Nat.lt_succ_self n)

lemma natToBase_inj (b : Nat) (hb : 2 ≤ b) (hb36 : b ≤ 36) (n1 n2 : Nat)
    (h : natToBase b n1 = natToBase b n2) : n1 = n2 := by
  have h1 := decodeBase_natToBase b hb hb36 n1
  rw [h, decodeBase_natToBase b hb hb36 n2] at h1
  omega

lemma natToBase_chars (b : Nat) (hb : 2 ≤ b) (n : Nat) :
    ∀ c ∈ natToBase b n, ∃ d, d < b ∧ c = digitChar36 d :=
  toBaseAux_chars b hb (n + 1) n (Nat.lt_succ_self n)

lemma toBaseAux_ne_nil (b : Nat) : ∀ fuel n, 0 < fuel → toBaseAux b fuel n ≠ [] := by
  intro fuel n hf
  cases fuel with
  | zero => omega
  | succ m =>
    rw [toBaseAux]
    split <;> simp

lemma natToBase_ne_nil (b n : Nat) : natToBase b n ≠ [] :=
  toBaseAux_ne_nil b (n + 1) n (Nat.succ_pos n)

lemma decStr_digits (n : Nat) : ∀ c ∈ decStr n, isDigitCh c = true := by
  intro c hc
  obtain ⟨d, hd, he⟩ := natToBase_chars 10 (by omega) n c hc
  exact he ▸ digitChar36_digit d hd

lemma decStr_no_dash (n : Nat) : '-' ∉ decStr n := by
  intro hm
  obtain ⟨d, hd, he⟩ := natToBase_chars 10 (by omega) n '-' hm
  exact digitChar36_not_dash d (by omega) he.symm

lemma toString36_no_dash (n : Nat) : '-' ∉ toString36 n := by
  intro hm
  obtain ⟨d, hd, he⟩ := natToBase_chars 36 (by omega) n '-' hm
  exact digitChar36_not_dash d hd he.symm

lemma toString36_no_quote (n : Nat) : '"' ∉ toString36 n := by
  intro hm
  obtain ⟨d, hd, he⟩ := natToBase_chars 36 (by omega) n '"' hm
  exact digitChar36_not_quote d hd he.symm

lemma decStr_isEmpty (n : Nat) : (decStr n).isEmpty = false := by
  cases h : decStr n with
  | nil => exact absurd h (natToBase_ne_nil 10 n)
  | cons c cs => rfl

lemma takeWhile_all {p : Char → Bool} :
    ∀ l : Str, (∀ c ∈ l, p c = true) → l.takeWhile p = l := by
  intro l h
  induction l with
  | nil => rfl
  | cons c cs ih =>
    have hc := h c (List.mem_cons_self c cs)
    simp only [List.takeWhile_cons, hc, if_true]
    rw [ih (fun x hx => h x (List.mem_cons_of_mem _ hx))]

lemma foldl_digit_eq :
    ∀ l : Str, (∀ c ∈ l, isDigitCh c = true) → ∀ a : Nat,
      l.foldl (fun a c => a * 10 + (c.toNat - 48)) a = l.foldl (fun a c => a * 10 + charVal c) a := by
  intro l hl
  induction l with
  | nil => intro a; rfl
  | cons c cs ih =>
    intro a
    have hc := hl c (List.mem_cons_self c cs)
    have h9 : c ≤ '9' := by
      simp only [isDigitCh, Bool.and_eq_true, decide_eq_true_eq] at hc
      exact hc.2
    have hval : c.toNat - 48 = charVal c := by rw [charVal, if_pos h9]
    simp only [List.foldl_cons, hval]
    exact ih (fun x hx => hl x (List.mem_cons_of_mem _ hx)) _

lemma foldl_decStr (n : Nat) :
    (decStr n).foldl (fun a c => a * 10 + (c.toNat - 48)) 0 = n := by
  rw [foldl_digit_eq (decStr n) (decStr_digits n) 0]
  exact decodeBase_natToBase 10 (by omega) (by omega) n

lemma digitsVal_decStr (n : Nat) : digitsVal (decStr n) = some n := by
  unfold digitsVal
  rw [takeWhile_all (decStr n) (decStr_digits n)]
  simp only [decStr_isEmpty n, if_false, Bool.false_eq_true]
  rw [foldl_decStr]

lemma jsParseInt_decStr (n : Nat) : jsParseInt (decStr n) = some (n : Int) := by
  obtain ⟨c, cs, hcs⟩ : ∃ c cs, decStr n = c :: cs := by
    cases h : decStr n with
    | nil => exact absurd h (natToBase_ne_nil 10 n)
    | cons c cs => exact ⟨c, cs, rfl⟩
  have hcmem : c ∈ decStr n := hcs ▸ List.mem_cons_self c cs
  obtain ⟨d, hd, he⟩ := natToBase_chars 10 (by omega) n c hcmem
  obtain ⟨hws, hm, hp⟩ := he ▸ digitChar36_props10 d hd
  have hdw : (decStr n).dropWhile isWs = decStr n := by
    rw [hcs, List.dropWhile_cons, hws]
    simp
  unfold jsParseInt
  rw [hdw, hcs]
  simp only [hm, hp, if_false]
  rw [← hcs, digitsVal_decStr]
  rfl

lemma jsNumToStr_nat (n : Nat) : jsNumToStr (some (n : Int)) = decStr n := by
  show intStr (n : Int) = decStr n
  unfold intStr
  rw [if_neg (by omega : ¬((n : Int) < 0))]
  congr 1

lemma jsNumToStr_int_of_nat (i : Int) (m : Nat) (h : i = (m : Int)) :
    jsNumToStr (some i) = decStr m := by
  rw [h]
  exact jsNumToStr_nat m

lemma append_sep_inj (c : Char) :
    ∀ a1 a2 b1 b2 : Str, c ∉ a1 → c ∉ a2 → a1 ++ c :: b1 = a2 ++ c :: b2 →
      a1 = a2 ∧ b1 = b2 := by
  intro a1
  induction a1 with
  | nil =>
    intro a2 b1 b2 _ h2 he
    cases a2 with
    | nil => simpa using he
    | cons y ys =>
      simp only [List.nil_append, List.cons_append, List.cons.injEq] at he
      exact absurd (he.1 ▸ List.mem_cons_self y ys) (he.1 ▸ h2)
  | cons x xs ih =>
    intro a2 b1 b2 h1 h2 he
    cases a2 with
    | nil =>
      simp only [List.cons_append, List.nil_append, List.cons.injEq] at he
      exact absurd (he.1 ▸ List.mem_cons_self x xs) (by rw [he.1] at h1; exact h1)
    | cons y ys =>
      simp only [List.cons_append, List.cons.injEq] at he
      obtain ⟨hxy, htl⟩ := he
      have hxs : c ∉ xs := fun m => h1 (List.mem_cons_of_mem _ m)
      have hys : c ∉ ys := fun m => h2 (List.mem_cons_of_mem _ m)
      obtain ⟨ha, hb⟩ := ih ys b1 b2 hxs hys htl
      exact ⟨by rw [hxy, ha], hb⟩

end ReelScript

namespace ReelScript

lemma serveVideo_found_eq (fs : Str → Option FileStat) (tail f : Str) (st : FileStat)
    (range : Option Str) (hdec : decodeURIComponent tail = .ok f)
    (hgood : badName f = false) (hfs : fs f = some st) :
    serveVideo fs ("/videos/".data ++ tail) range = serveVideoFound st f range := by
  unfold serveVideo
  rw [replaceFirst_pre, hdec]
  simp [hgood, hfs]

lemma serveVideo_bad_eq (fs : Str → Option FileStat) (tail f : Str) (range : Option Str)
    (hdec : decodeURIComponent tail = .ok f) (hbad : badName f = true) :
    serveVideo fs ("/videos/".data ++ tail) range = .ok ⟨400, [], .text "Bad request".data⟩ := by
  unfold serveVideo
  rw [replaceFirst_pre, hdec]
  simp [hbad]

lemma serveVideoFound_some (st : FileStat) (f r : Str) (hr : r.isEmpty = false) :
    serveVideoFound st f (some r) =
      serveVideoRange206 st (cacheHeadersOf (mimeFor f) (etagOf st)) r := by
  simp [serveVideoFound, hr]

lemma serveVideoFound_none (st : FileStat) (f : Str) :
    serveVideoFound st f none =
      .ok (serveVideoFull200 st (cacheHeadersOf (mimeFor f) (etagOf st))) :=
  rfl

lemma append_isEmpty_false (l1 l2 : Str) (h : l1.isEmpty = false) :
    (l1 ++ l2).isEmpty = false := by
  cases l1 with
  | nil => simp at h
  | cons x xs => rfl

lemma serveVideoRange206_cases (st : FileStat) (ch : List (Str × Str)) (r : Str) :
    respStatus? (serveVideoRange206 st ch r) = some 206
    ∨ serveVideoRange206 st ch r = .error "ERR_OUT_OF_RANGE".data := by
  simp only [serveVideoRange206]
  split
  · left; rfl
  · right; rfl

lemma range206_explicit (st : FileStat) (cacheH : List (Str × Str)) (A B : Nat)
    (hAB : A ≤ B) :
    serveVideoRange206 st cacheH ("bytes=".data ++ (decStr A ++ '-' :: decStr B)) =
      .ok ⟨206,
       cacheH ++
         [("Content-Range".data,
           "bytes ".data ++ decStr A ++ "-".data ++ decStr B ++ "/".data ++ decStr st.size),
          ("Content-Length".data, jsNumToStr (some ((B : Int) - (A : Int) + 1)))],
       .fileStream (some (A : Int)) (some (B : Int))⟩ := by
  have hv : validStreamBounds (some (A : Int)) (some (B : Int)) = true := by
    show (if 0 ≤ (A : Int) ∧ 0 ≤ (B : Int) ∧ (A : Int) ≤ (B : Int) then true else false) = true
    rw [if_pos ⟨by omega, by omega, by omega⟩]
  unfold serveVideoRange206
  rw [replaceFirst_pre, splitOnChar_sep '-' _ _ (decStr_no_dash A),
    splitOnChar_not_mem '-' _ (decStr_no_dash B)]
  simp only [List.headD_cons, jsParseInt_decStr, List.getElem?_cons_succ,
    List.getElem?_cons_zero, decStr_isEmpty, Bool.false_eq_true, if_false,
    jsNumToStr_nat, jsAdd, jsSub]
  rw [if_pos hv]

lemma range206_omitted (st : FileStat) (cacheH : List (Str × Str)) (A : Nat)
    (hA : A < st.size) :
    serveVideoRange206 st cacheH ("bytes=".data ++ (decStr A ++ ['-'])) =
      .ok ⟨206,
       cacheH ++
         [("Content-Range".data,
           "bytes ".data ++ decStr A ++ "-".data ++ jsNumToStr (some ((st.size : Int) - 1)) ++
             "/".data ++ decStr st.size),
          ("Content-Length".data,
           jsNumToStr (some ((st.size : Int) - 1 - (A : Int) + 1)))],
       .fileStream (some (A : Int)) (some ((st.size : Int) - 1))⟩ := by
  have hv : validStreamBounds (some (A : Int)) (some ((st.size : Int) - 1)) = true := by
    show (if 0 ≤ (A : Int) ∧ 0 ≤ (st.size : Int) - 1 ∧ (A : Int) ≤ (st.size : Int) - 1
      then true else false) = true
    rw [if_pos ⟨by omega, by omega, by omega⟩]
  unfold serveVideoRange206
  rw [replaceFirst_pre, splitOnChar_sep '-' _ _ (decStr_no_dash A)]
  simp only [splitOnChar, List.headD_cons, jsParseInt_decStr, List.getElem?_cons_succ,
    List.getElem?_cons_zero, List.isEmpty_nil, if_true, jsNumToStr_nat, jsAdd, jsSub]
  rw [if_pos hv]

lemma lookupHdr_cache (k ct etag : Str) (rest : List (Str × Str))
    (h1 : ¬("Content-Type".data : Str) = k) (h2 : ¬("Accept-Ranges".data : Str) = k)
    (h3 : ¬("ETag".data : Str) = k) (h4 : ¬("Cache-Control".data : Str) = k) :
    lookupHdr k (cacheHeadersOf ct etag ++ rest) = lookupHdr k rest := by
  simp [cacheHeadersOf, lookupHdr, h1, h2, h3, h4]

lemma lookupHdr_CR (ct etag v w : Str) :
    lookupHdr "Content-Range".data
      (cacheHeadersOf ct etag ++ [("Content-Range".data, v), ("Content-Length".data, w)]) =
      some v := by
  rw [lookupHdr_cache _ ct etag _ (by decide) (by decide) (by decide) (by decide)]
  simp [lookupHdr]

lemma lookupHdr_CL (ct etag v w : Str) :
    lookupHdr "Content-Length".data
      (cacheHeadersOf ct etag ++ [("Content-Range".data, v), ("Content-Length".data, w)]) =
      some w := by
  rw [lookupHdr_cache _ ct etag _ (by decide) (by decide) (by decide) (by decide)]
  simp [lookupHdr, (by decide : ¬("Content-Range".data : Str) = "Content-Length".data)]

lemma lookupHdr_CL200 (ct etag w : Str) :
    lookupHdr "Content-Length".data (cacheHeadersOf ct etag ++ [("Content-Length".data, w)]) =
      some w := by
  rw [lookupHdr_cache _ ct etag _ (by decide) (by decide) (by decide) (by decide)]
  simp [lookupHdr]

end ReelScript

namespace ReelScript

lemma waitForBackendLoop_iff (health : Nat → Bool) :
    ∀ fuel i, waitForBackendLoop health i fuel = true ↔ ∃ j, j < fuel ∧ health (i + j) = true := by
  intro fuel
  induction fuel with
  | zero => intro i; simp [waitForBackendLoop]
  | succ m ih =>
    intro i
    by_cases h : health i = true
    · constructor
      · intro _
        exact ⟨0, Nat.succ_pos m, by simpa using h⟩
      · intro _
        simp [waitForBackendLoop, h]
    · have hf : health i = false := by revert h; cases health i <;> simp
      simp only [waitForBackendLoop, hf, Bool.false_eq_true, if_false]
      rw [ih (i + 1)]
      constructor
      · rintro ⟨j, hj, hh⟩
        exact ⟨j + 1, by omega, by rwa [show i + (j + 1) = i + 1 + j by omega]⟩
      · rintro ⟨j, hj, hh⟩
        cases j with
        | zero =>
          rw [Nat.add_zero] at hh
          rw [hf] at hh
          cases hh
        | succ j2 =>
          exact ⟨j2, by omega, by rwa [show i + 1 + j2 = i + (j2 + 1) by omega]⟩

/-- C3: the gateway opens its public listener (`server.listen` on `PORT`)
if and only if some health probe among the `MAX_RETRIES` attempts reported
HTTP-OK; if every one of the 30 attempts (spaced `RETRY_DELAY_MS` = 1000 ms
apart) fails, the startup continuation exits the process with code 1 and
never opens the listener. -/
theorem c3_startup_gating (health : Nat → Bool) :
    (startupOutcome health = StartupOutcome.listen PORT ↔
      ∃ i, i < MAX_RETRIES ∧ health i = true)
    ∧ ((∀ i, i < MAX_RETRIES → health i = false) →
        startupOutcome health = StartupOutcome.exitFail 1)
    ∧ MAX_RETRIES = 30 ∧ RETRY_DELAY_MS = 1000 := by
  have hiff := waitForBackendLoop_iff health MAX_RETRIES 0
  refine ⟨⟨?_, ?_⟩, ?_, rfl, rfl⟩
  · intro hl
    by_cases h : waitForBackend health = true
    · obtain ⟨j, hj, hh⟩ := hiff.mp h
      exact ⟨j, hj, by simpa using hh⟩
    · exfalso
      unfold startupOutcome at hl
      rw [if_neg h] at hl
      exact StartupOutcome.noConfusion hl
  · rintro ⟨i, hi, hh⟩
    have hw : waitForBackend health = true := hiff.mpr ⟨i, hi, by simpa using hh⟩
    unfold startupOutcome
    rw [if_pos hw]
  · intro hall
    have hw : waitForBackendLoop health 0 MAX_RETRIES = false := by
      cases hv : waitForBackendLoop health 0 MAX_RETRIES
      · rfl
      · obtain ⟨j, hj, hh⟩ := hiff.mp hv
        rw [Nat.zero_add] at hh
        rw [hall j hj] at hh
        cases hh
    unfold startupOutcome waitForBackend
    rw [hw]
    rfl

/-- Witness for C3 at two concrete health traces: one that succeeds at the
fourth probe and listens, one that never succeeds and exits with code 1. -/
theorem c3_startup_gating_witness :
    startupOutcome (fun i => decide (i = 3)) = StartupOutcome.listen PORT
    ∧ startupOutcome (fun _ => false) = StartupOutcome.exitFail 1 :=
  ⟨(c3_startup_gating (fun i => decide (i = 3))).1.mpr ⟨3, by decide, by decide⟩,
   (c3_startup_gating (fun _ => false)).2.1 (fun _ _ => rfl)⟩

/-- C4: whatever exit code (or signal-kill `null`) the backend subprocess
reports, the registered exit handler logs the code and terminates the
gateway with exit code 1 (non-zero); it spawns no replacement backend. -/
theorem c4_backend_exit_fatal (code : Option Int) :
    backendOnExit code =
      [Effect.log ("[backend] exited with code ".data ++ jsExitCodeStr code),
       Effect.exitProcess 1]
    ∧ exitCodes (backendOnExit code) = [1]
    ∧ spawnCount (backendOnExit code) = 0 :=
  ⟨rfl, rfl, rfl⟩

/-- C5: on a proxy error for an HTTP request (the response object has
`writeHead`), the gateway logs and answers 502 with Content-Type
`application/json` and a JSON body whose single field is `error`; the
handler requests no process exit and no respawn. -/
theorem c5_proxy_error_isolated (errMsg : Str) :
    proxyOnError errMsg true =
      [Effect.log ("[proxy] error: ".data ++ errMsg),
       Effect.writeHead 502 [("Content-Type".data, "application/json".data)],
       Effect.endBody (jsonStringify proxyErrorBody)]
    ∧ ("error".data, "Backend unavailable".data) ∈ proxyErrorBody
    ∧ exitCodes (proxyOnError errMsg true) = []
    ∧ spawnCount (proxyOnError errMsg true) = 0 :=
  ⟨rfl, by decide, rfl, rfl⟩

/-- C6: every request URL is dispatched by exactly one of three rules in
fixed precedence: a `/videos/` prefix routes to the video server, else an
`/api/` prefix routes to the backend proxy, else the static shell handler. -/
theorem c6_routing_precedence (url : Option Str) :
    (routeOf url = Route.video ∨ routeOf url = Route.api ∨ routeOf url = Route.shell)
    ∧ (urlStartsWith url "/videos/".data = true → routeOf url = Route.video)
    ∧ (urlStartsWith url "/videos/".data = false → urlStartsWith url "/api/".data = true →
        routeOf url = Route.api)
    ∧ (urlStartsWith url "/videos/".data = false → urlStartsWith url "/api/".data = false →
        routeOf url = Route.shell) := by
  unfold routeOf
  by_cases h1 : urlStartsWith url "/videos/".data = true
  · simp [h1]
  · have h1f : urlStartsWith url "/videos/".data = false := by
      revert h1; cases urlStartsWith url "/videos/".data <;> simp
    by_cases h2 : urlStartsWith url "/api/".data = true
    · simp [h1f, h2]
    · have h2f : urlStartsWith url "/api/".data = false := by
        revert h2; cases urlStartsWith url "/api/".data <;> simp
      simp [h1f, h2f]

/-- Witness for C6 at three concrete URLs, one per routing rule. -/
theorem c6_routing_precedence_witness :
    routeOf (some "/videos/a.mp4".data) = Route.video
    ∧ routeOf (some "/api/health".data) = Route.api
    ∧ routeOf (some "/index.html".data) = Route.shell :=
  ⟨(c6_routing_precedence (some "/videos/a.mp4".data)).2.1 (by decide),
   (c6_routing_precedence (some "/api/health".data)).2.2.1 (by decide) (by decide),
   (c6_routing_precedence (some "/index.html".data)).2.2.2 (by decide) (by decide)⟩

/-- C7: the upgrade handler proxies a WebSocket upgrade precisely when the
request URL is exactly `/ws`; every other upgrade only destroys the socket,
and in no case is an HTTP response head written. -/
theorem c7_upgrade_ws_only (url : Option Str) :
    (upgradeHandler url = [Effect.proxyWs] ↔ url = some "/ws".data)
    ∧ (¬url = some "/ws".data → upgradeHandler url = [Effect.destroySocket])
    ∧ writesResponse (upgradeHandler url) = false := by
  by_cases h : url = some "/ws".data
  · subst h
    refine ⟨by simp [upgradeHandler], fun hc => absurd rfl hc, by decide⟩
  · refine ⟨?_, fun _ => by simp [upgradeHandler, h], ?_⟩
    · simp [upgradeHandler, h]
    · simp [upgradeHandler, h, writesResponse]

/-- Witness for C7 at the fixed path `/ws` and at another path `/wsx`. -/
theorem c7_upgrade_ws_only_witness :
    upgradeHandler (some "/ws".data) = [Effect.proxyWs]
    ∧ upgradeHandler (some "/wsx".data) = [Effect.destroySocket]
    ∧ writesResponse (upgradeHandler (some "/wsx".data)) = false :=
  ⟨(c7_upgrade_ws_only (some "/ws".data)).1.mpr rfl,
   (c7_upgrade_ws_only (some "/wsx".data)).2.1 (by decide),
   (c7_upgrade_ws_only (some "/wsx".data)).2.2⟩

end ReelScript

namespace ReelScript

/-- C2: for any request under `/videos/` whose percent-decoded filename
contains `..` or a path separator `/`, `serveVideo` answers 400 with the
fixed text body, and the result is the same whatever the videos directory
contains — no file is consulted or streamed. -/
theorem c2_traversal_rejected (fs fs' : Str → Option FileStat) (tail f : Str)
    (range : Option Str) (hdec : decodeURIComponent tail = .ok f)
    (hbad : badName f = true) :
    serveVideo fs ("/videos/".data ++ tail) range = .ok ⟨400, [], Body.text "Bad request".data⟩
    ∧ serveVideo fs ("/videos/".data ++ tail) range =
        serveVideo fs' ("/videos/".data ++ tail) range := by
  have h1 := serveVideo_bad_eq fs tail f range hdec hbad
  exact ⟨h1, by rw [h1, serveVideo_bad_eq fs' tail f range hdec hbad]⟩

/-- Witness for C2: `/videos/a%2Fb` decodes to `a/b` and is rejected with
400 both against the demo directory and against a directory where every
name stats successfully. -/
theorem c2_traversal_rejected_witness :
    serveVideo demoFs ("/videos/".data ++ "a%2Fb".data) none =
      .ok ⟨400, [], Body.text "Bad request".data⟩
    ∧ serveVideo demoFs ("/videos/".data ++ "a%2Fb".data) none =
        serveVideo (fun _ => some ⟨1000, 12345⟩) ("/videos/".data ++ "a%2Fb".data) none :=
  c2_traversal_rejected demoFs (fun _ => some ⟨1000, 12345⟩) "a%2Fb".data "a/b".data none
    (by decide) (by decide)

/-- C8: two etags are equal exactly when both the modification time and the
size agree — the tag is a deterministic function of exactly these two
fields, and any mtime change (size changed or not) changes the tag. -/
theorem c8_etag_exact (st1 st2 : FileStat) :
    etagOf st1 = etagOf st2 ↔ st1.mtimeMs = st2.mtimeMs ∧ st1.size = st2.size := by
  constructor
  · intro h
    have hq : ("\"".data : Str) = ['"'] := by decide
    have hd : ("-".data : Str) = ['-'] := by decide
    unfold etagOf at h
    rw [hq, hd] at h
    simp only [List.append_eq, List.append_assoc, List.singleton_append] at h
    injection h with _ h3
    obtain ⟨hm, hs⟩ := append_sep_inj '-' _ _ _ _
      (toString36_no_dash st1.mtimeMs) (toString36_no_dash st2.mtimeMs) h3
    obtain ⟨hs2, _⟩ := append_sep_inj '"' _ _ [] []
      (toString36_no_quote st1.size) (toString36_no_quote st2.size) hs
    exact ⟨natToBase_inj 36 (by omega) (by omega) _ _ hm,
           natToBase_inj 36 (by omega) (by omega) _ _ hs2⟩
  · rintro ⟨h1, h2⟩
    unfold etagOf
    rw [h1, h2]

/-- Witness for C8: equal stat data gives equal tags; changing only the
mtime (1000-byte file, mtime 2 versus 3) changes the tag. -/
theorem c8_etag_exact_witness :
    etagOf ⟨1000, 2⟩ = etagOf ⟨1000, 2⟩
    ∧ ¬etagOf ⟨1000, 2⟩ = etagOf ⟨1000, 3⟩ :=
  ⟨(c8_etag_exact ⟨1000, 2⟩ ⟨1000, 2⟩).mpr ⟨rfl, rfl⟩,
   fun h => absurd ((c8_etag_exact ⟨1000, 2⟩ ⟨1000, 3⟩).mp h).1 (by decide)⟩

/-- C9 counterexample: the request URL `/videos/%` (malformed percent
encoding) makes `decodeURIComponent` throw a URIError that nothing in the
handler catches, so the handler does not produce an HTTP response at all —
refuting the claim that no request can make the handler throw. -/
theorem c9_uncaught_uri_error :
    serveVideo (fun _ => none) "/videos/%".data none = Except.error "URI malformed".data :=
  rfl

lemma handledOk_of_status206 (e : Except Str VideoResponse)
    (h : respStatus? e = some 206) : handledOk e = true := by
  cases e with
  | error s => simp [respStatus?] at h
  | ok r =>
    simp only [respStatus?, Option.some.injEq] at h
    simp [handledOk, h]

/-- C9 amended: the 400/404 conversions at the handler boundary are real,
but the handler is not throw-free. For every request whose URL
percent-decodes successfully, `serveVideo` either produces a response with
one of the converted statuses 200, 206, 400, 404, or lets exactly the
ERR_OUT_OF_RANGE of the stream constructor escape (a Range value whose
parsed bounds are not non-negative ordered integers); when no Range header
is present it always produces a converted response. A URL whose percent
encoding is malformed escapes as an uncaught URIError instead. -/
theorem c9_handled_or_stream_throw (fs : Str → Option FileStat) (url : Str)
    (range : Option Str) (f : Str)
    (hdec : decodeURIComponent (replaceFirst "/videos/".data url) = .ok f) :
    (handledOk (serveVideo fs url range) = true
      ∨ serveVideo fs url range = .error "ERR_OUT_OF_RANGE".data)
    ∧ (range = none → handledOk (serveVideo fs url range) = true) := by
  unfold serveVideo
  rw [hdec]
  by_cases hb : badName f = true
  · simp [hb, handledOk]
  · have hbf : badName f = false := by revert hb; cases badName f <;> simp
    simp only [hbf, Bool.false_eq_true, if_false]
    cases hfs : fs f with
    | none => simp [handledOk]
    | some st =>
      show (handledOk (serveVideoFound st f range) = true
          ∨ serveVideoFound st f range = .error "ERR_OUT_OF_RANGE".data)
        ∧ (range = none → handledOk (serveVideoFound st f range) = true)
      constructor
      · cases range with
        | none => left; rfl
        | some r =>
          cases hre : r.isEmpty
          · rw [serveVideoFound_some st f r hre]
            rcases serveVideoRange206_cases st (cacheHeadersOf (mimeFor f) (etagOf st)) r
              with hc | hc
            · exact Or.inl (handledOk_of_status206 _ hc)
            · exact Or.inr hc
          · left
            simp [serveVideoFound, hre, handledOk, serveVideoFull200]
      · intro hrg
        subst hrg
        rfl

/-- Witness for C9 amended: a well-encoded URL for a missing file with no
Range header is handled (404 is among the converted statuses). -/
theorem c9_handled_or_stream_throw_witness :
    handledOk (serveVideo (fun _ => none) "/videos/a.mp4".data none) = true :=
  (c9_handled_or_stream_throw (fun _ => none) "/videos/a.mp4".data none "a.mp4".data
    (by decide)).2 rfl

/-- C10 counterexample: the claim's own example input — an existing file
requested with `Range: bytes=-500`, whose start parses as NaN — does not
yield a 206 response: `createReadStream` throws ERR_OUT_OF_RANGE, which
escapes the handler uncaught, and the buffered 206 head is never
delivered. -/
theorem c10_suffix_range_throws :
    serveVideo demoFs ("/videos/".data ++ "movie.mp4".data) (some "bytes=-500".data) =
      Except.error "ERR_OUT_OF_RANGE".data :=
  rfl

/-- C10 amended: the parsed Range bounds are never validated against the
file size — any `bytes=A-B` with `A ≤ B`, however far beyond the end of
the file, gets a 206 whose `Content-Range` and `Content-Length` carry the
unvalidated values. But a 206 is not unconditional on the header's
presence: an empty header value is falsy and takes the 200 branch, and a
value whose parsed start is NaN (such as `bytes=-500`) or exceeds the
parsed end makes `createReadStream` throw an uncaught ERR_OUT_OF_RANGE
instead of delivering the 206. -/
theorem c10_size_never_validated (fs : Str → Option FileStat) (tail f : Str) (st : FileStat)
    (hdec : decodeURIComponent tail = .ok f) (hgood : badName f = false)
    (hfs : fs f = some st) :
    (∀ A B : Nat, A ≤ B →
      respStatus? (serveVideo fs ("/videos/".data ++ tail)
        (some ("bytes=".data ++ decStr A ++ "-".data ++ decStr B))) = some 206
      ∧ respHeader? "Content-Range".data (serveVideo fs ("/videos/".data ++ tail)
          (some ("bytes=".data ++ decStr A ++ "-".data ++ decStr B))) =
          some ("bytes ".data ++ decStr A ++ "-".data ++ decStr B ++ "/".data ++ decStr st.size)
      ∧ respHeader? "Content-Length".data (serveVideo fs ("/videos/".data ++ tail)
          (some ("bytes=".data ++ decStr A ++ "-".data ++ decStr B))) =
          some (decStr (B - A + 1)))
    ∧ serveVideo fs ("/videos/".data ++ tail) (some "bytes=-500".data) =
        .error "ERR_OUT_OF_RANGE".data
    ∧ respStatus? (serveVideo fs ("/videos/".data ++ tail) (some [])) = some 200 := by
  refine ⟨?_, ?_, ?_⟩
  · intro A B hAB
    have hd : ("-".data : Str) = ['-'] := by decide
    have hne0 : ("bytes=".data : Str).isEmpty = false := by decide
    have hconvB : ("bytes=".data ++ decStr A ++ "-".data ++ decStr B : Str) =
        "bytes=".data ++ (decStr A ++ '-' :: decStr B) := by
      rw [hd]
      simp [List.append_assoc, List.singleton_append]
    have hneB : ("bytes=".data ++ decStr A ++ "-".data ++ decStr B : Str).isEmpty = false :=
      append_isEmpty_false _ _ (append_isEmpty_false _ _ (append_isEmpty_false _ _ hne0))
    refine ⟨?_, ?_, ?_⟩
    · rw [serveVideo_found_eq fs tail f st _ hdec hgood hfs, serveVideoFound_some st f _ hneB,
        hconvB, range206_explicit st _ A B hAB]
      rfl
    · rw [serveVideo_found_eq fs tail f st _ hdec hgood hfs, serveVideoFound_some st f _ hneB,
        hconvB, range206_explicit st _ A B hAB]
      simp only [respHeader?]
      exact lookupHdr_CR _ _ _ _
    · rw [serveVideo_found_eq fs tail f st _ hdec hgood hfs, serveVideoFound_some st f _ hneB,
        hconvB, range206_explicit st _ A B hAB]
      simp only [respHeader?]
      rw [lookupHdr_CL _ _ _ _, jsNumToStr_int_of_nat _ (B - A + 1) (by omega)]
  · rw [serveVideo_found_eq fs tail f st _ hdec hgood hfs,
      serveVideoFound_some st f "bytes=-500".data rfl]
    rfl
  · rw [serveVideo_found_eq fs tail f st _ hdec hgood hfs]
    rfl

/-- Witness for C10 amended: on the 1000-byte demo file, `bytes=0-999999`
— far beyond the file end — still gets 206 with `Content-Range: bytes
0-999999/1000`, while `bytes=-500` escapes as ERR_OUT_OF_RANGE. -/
theorem c10_size_never_validated_witness :
    respStatus? (serveVideo demoFs ("/videos/".data ++ "movie.mp4".data)
      (some ("bytes=".data ++ decStr 0 ++ "-".data ++ decStr 999999))) = some 206
    ∧ respHeader? "Content-Range".data (serveVideo demoFs ("/videos/".data ++ "movie.mp4".data)
        (some ("bytes=".data ++ decStr 0 ++ "-".data ++ decStr 999999))) =
        some ("bytes ".data ++ decStr 0 ++ "-".data ++ decStr 999999 ++ "/".data ++ decStr 1000)
    ∧ serveVideo demoFs ("/videos/".data ++ "movie.mp4".data) (some "bytes=-500".data) =
        .error "ERR_OUT_OF_RANGE".data :=
  ⟨((c10_size_never_validated demoFs "movie.mp4".data "movie.mp4".data ⟨1000, 12345⟩
      (by decide) (by decide) rfl).1 0 999999 (by decide)).1,
   ((c10_size_never_validated demoFs "movie.mp4".data "movie.mp4".data ⟨1000, 12345⟩
      (by decide) (by decide) rfl).1 0 999999 (by decide)).2.1,
   (c10_size_never_validated demoFs "movie.mp4".data "movie.mp4".data ⟨1000, 12345⟩
      (by decide) (by decide) rfl).2.1⟩

end ReelScript

namespace ReelScript

/-- C1: for a request whose decoded filename is clean and stats to `st`,
a `Range: bytes=A-B` header with `A ≤ B < st.size` gets a 206 response with
`Content-Range: bytes A-B/size`, `Content-Length` of `B - A + 1`, and a
read stream over exactly those `B - A + 1` bytes; an omitted end position
behaves exactly as `B = size - 1`; and no Range header gets a 200 response
streaming the whole file with `Content-Length` equal to the file size. -/
theorem c1_range_semantics (fs : Str → Option FileStat) (tail f : Str) (st : FileStat)
    (A B : Nat) (hdec : decodeURIComponent tail = .ok f) (hgood : badName f = false)
    (hfs : fs f = some st) (hAB : A ≤ B) (hB : B < st.size) :
    (respStatus? (serveVideo fs ("/videos/".data ++ tail)
        (some ("bytes=".data ++ decStr A ++ "-".data ++ decStr B))) = some 206
     ∧ respHeader? "Content-Range".data (serveVideo fs ("/videos/".data ++ tail)
        (some ("bytes=".data ++ decStr A ++ "-".data ++ decStr B))) =
        some ("bytes ".data ++ decStr A ++ "-".data ++ decStr B ++ "/".data ++ decStr st.size)
     ∧ respHeader? "Content-Length".data (serveVideo fs ("/videos/".data ++ tail)
        (some ("bytes=".data ++ decStr A ++ "-".data ++ decStr B))) =
        some (decStr (B - A + 1))
     ∧ respBody? (serveVideo fs ("/videos/".data ++ tail)
        (some ("bytes=".data ++ decStr A ++ "-".data ++ decStr B))) =
        some (Body.fileStream (some (A : Int)) (some (B : Int)))
     ∧ streamedBytes st.size (Body.fileStream (some (A : Int)) (some (B : Int))) =
        some (B - A + 1))
    ∧ serveVideo fs ("/videos/".data ++ tail)
        (some ("bytes=".data ++ decStr A ++ "-".data)) =
      serveVideo fs ("/videos/".data ++ tail)
        (some ("bytes=".data ++ decStr A ++ "-".data ++ decStr (st.size - 1)))
    ∧ (respStatus? (serveVideo fs ("/videos/".data ++ tail) none) = some 200
       ∧ respHeader? "Content-Length".data (serveVideo fs ("/videos/".data ++ tail) none) =
          some (decStr st.size)
       ∧ respBody? (serveVideo fs ("/videos/".data ++ tail) none) = some Body.fileAll
       ∧ streamedBytes st.size Body.fileAll = some st.size) := by
  have hd : ("-".data : Str) = ['-'] := by decide
  have hne0 : ("bytes=".data : Str).isEmpty = false := by decide
  have hconvB : ("bytes=".data ++ decStr A ++ "-".data ++ decStr B : Str) =
      "bytes=".data ++ (decStr A ++ '-' :: decStr B) := by
    rw [hd]
    simp [List.append_assoc, List.singleton_append]
  have hconvE : ("bytes=".data ++ decStr A ++ "-".data ++ decStr (st.size - 1) : Str) =
      "bytes=".data ++ (decStr A ++ '-' :: decStr (st.size - 1)) := by
    rw [hd]
    simp [List.append_assoc, List.singleton_append]
  have hconvO : ("bytes=".data ++ decStr A ++ "-".data : Str) =
      "bytes=".data ++ (decStr A ++ ['-']) := by
    rw [hd]
    simp [List.append_assoc]
  have hneB : ("bytes=".data ++ decStr A ++ "-".data ++ decStr B : Str).isEmpty = false :=
    append_isEmpty_false _ _ (append_isEmpty_false _ _ (append_isEmpty_false _ _ hne0))
  have hneO : ("bytes=".data ++ decStr A ++ "-".data : Str).isEmpty = false :=
    append_isEmpty_false _ _ (append_isEmpty_false _ _ hne0)
  have hneE : ("bytes=".data ++ decStr A ++ "-".data ++ decStr (st.size - 1) : Str).isEmpty =
      false :=
    append_isEmpty_false _ _ (append_isEmpty_false _ _ (append_isEmpty_false _ _ hne0))
  refine ⟨⟨?_, ?_, ?_, ?_, ?_⟩, ?_, ?_, ?_, ?_, ?_⟩
  · rw [serveVideo_found_eq fs tail f st _ hdec hgood hfs, serveVideoFound_some st f _ hneB,
      hconvB, range206_explicit st _ A B hAB]
    rfl
  · rw [serveVideo_found_eq fs tail f st _ hdec hgood hfs, serveVideoFound_some st f _ hneB,
      hconvB, range206_explicit st _ A B hAB]
    simp only [respHeader?]
    exact lookupHdr_CR _ _ _ _
  · rw [serveVideo_found_eq fs tail f st _ hdec hgood hfs, serveVideoFound_some st f _ hneB,
      hconvB, range206_explicit st _ A B hAB]
    simp only [respHeader?]
    rw [lookupHdr_CL _ _ _ _, jsNumToStr_int_of_nat _ (B - A + 1) (by omega)]
  · rw [serveVideo_found_eq fs tail f st _ hdec hgood hfs, serveVideoFound_some st f _ hneB,
      hconvB, range206_explicit st _ A B hAB]
    rfl
  · simp only [streamedBytes]
    rw [if_pos ⟨by omega, by omega, by omega⟩]
    congr 1
    omega
  · rw [serveVideo_found_eq fs tail f st _ hdec hgood hfs,
      serveVideo_found_eq fs tail f st _ hdec hgood hfs,
      serveVideoFound_some st f _ hneO, serveVideoFound_some st f _ hneE,
      hconvE, hconvO, range206_omitted st _ A (by omega),
      range206_explicit st _ A (st.size - 1) (by omega)]
    have he : ((st.size : Int) - 1) = ((st.size - 1 : Nat) : Int) := by omega
    rw [he, jsNumToStr_nat]
  · rw [serveVideo_found_eq fs tail f st none hdec hgood hfs, serveVideoFound_none]
    rfl
  · rw [serveVideo_found_eq fs tail f st none hdec hgood hfs, serveVideoFound_none]
    simp only [respHeader?]
    unfold serveVideoFull200
    exact lookupHdr_CL200 _ _ _
  · rw [serveVideo_found_eq fs tail f st none hdec hgood hfs, serveVideoFound_none]
    rfl
  · rfl

/-- Witness for C1: byte range 100-499 of the 1000-byte demo file gets 206
with `Content-Range: bytes 100-499/1000` and length 400; the same request
without a Range header gets 200 with length 1000. -/
theorem c1_range_semantics_witness :
    (100 ≤ 499 ∧ 499 < 1000)
    ∧ respStatus? (serveVideo demoFs ("/videos/".data ++ "movie.mp4".data)
        (some ("bytes=".data ++ decStr 100 ++ "-".data ++ decStr 499))) = some 206
    ∧ respHeader? "Content-Range".data (serveVideo demoFs ("/videos/".data ++ "movie.mp4".data)
        (some ("bytes=".data ++ decStr 100 ++ "-".data ++ decStr 499))) =
        some ("bytes ".data ++ decStr 100 ++ "-".data ++ decStr 499 ++ "/".data ++ decStr 1000)
    ∧ respHeader? "Content-Length".data (serveVideo demoFs ("/videos/".data ++ "movie.mp4".data)
        (some ("bytes=".data ++ decStr 100 ++ "-".data ++ decStr 499))) =
        some (decStr (499 - 100 + 1))
    ∧ respStatus? (serveVideo demoFs ("/videos/".data ++ "movie.mp4".data) none) = some 200
    ∧ respHeader? "Content-Length".data
        (serveVideo demoFs ("/videos/".data ++ "movie.mp4".data) none) = some (decStr 1000) :=
  ⟨⟨by decide, by decide⟩,
   (c1_range_semantics demoFs "movie.mp4".data "movie.mp4".data ⟨1000, 12345⟩ 100 499
     (by decide) (by decide) rfl (by decide) (by decide)).1.1,
   (c1_range_semantics demoFs "movie.mp4".data "movie.mp4".data ⟨1000, 12345⟩ 100 499
     (by decide) (by decide) rfl (by decide) (by decide)).1.2.1,
   (c1_range_semantics demoFs "movie.mp4".data "movie.mp4".data ⟨1000, 12345⟩ 100 499
     (by decide) (by decide) rfl (by decide) (by decide)).1.2.2.1,
   (c1_range_semantics demoFs "movie.mp4".data "movie.mp4".data ⟨1000, 12345⟩ 100 499
     (by decide) (by decide) rfl (by decide) (by decide)).2.2.1,
   (c1_range_semantics demoFs "movie.mp4".data "movie.mp4".data ⟨1000, 12345⟩ 100 499
     (by decide) (by decide) rfl (by decide) (by decide)).2.2.2.1⟩

end ReelScript
